import Mathlib

/-!
Verification of the discord-webhook MCP server (send / edit / delete message
over a single Discord webhook endpoint).

The development shallowly embeds the TypeScript sources:
  * `schemas.ts` (zod schemas)        -> decidable validators over typed records
  * `discord-api.ts`                  -> `makeRequest`, `convertError`,
                                         `formatError`, `sendToDiscord`,
                                         `editDiscordMessage`, `deleteDiscordMessage`
  * `index.ts` tool handlers          -> `sendPhase1`/`sendPhase2` etc., with the
                                         single network exchange defunctionalised
                                         as a `FetchResult` oracle argument.

JavaScript strings are modelled as Lean `String`, JS exceptions as an explicit
`Except` channel, `JSON.stringify`/`JSON.parse` of the flat objects the code
exchanges as `stringifyFlat`/`jsonParse`, and the WHATWG `new URL` constructor
as `parseURL` (absolute `scheme://...` URLs, throwing = `none`).
-/

namespace DiscordMCP

/-- Flat JSON values exchanged by the client: strings, (integer) numbers,
booleans and null.  JSON numbers are modelled as integers, which covers every
number the code produces (HTTP status codes). -/
inductive JLit where
  | str (s : String)
  | num (n : Int)
  | bool (b : Bool)
  | null
deriving DecidableEq, Repr

/-- Lower-case hexadecimal digit, as produced by `JSON.stringify` for control
characters (`\u00XX`). -/
def hexDigitChar (n : Nat) : Char :=
  if n < 10 then Char.ofNat (48 + n) else Char.ofNat (87 + n)

/-- `JSON.stringify` escaping of one character: `"` and `\` get a backslash,
the usual control characters get their two-character escapes, any other
control character below U+0020 becomes `\u00XX`, everything else is copied. -/
def escChar (c : Char) : List Char :=
  if c = '"' then ['\\', '"']
  else if c = '\\' then ['\\', '\\']
  else if c = '\x08' then ['\\', 'b']
  else if c = '\t' then ['\\', 't']
  else if c = '\n' then ['\\', 'n']
  else if c = '\x0c' then ['\\', 'f']
  else if c = '\r' then ['\\', 'r']
  else if c.toNat < 32 then
    ['\\', 'u', '0', '0', hexDigitChar (c.toNat / 16), hexDigitChar (c.toNat % 16)]
  else [c]

/-- `JSON.stringify` escaping of a character list. -/
def escapeChars : List Char → List Char
  | [] => []
  | c :: cs => escChar c ++ escapeChars cs

/-- A JSON string literal: `"` ++ escaped content ++ `"`. -/
def quoteStr (s : String) : List Char :=
  '"' :: (escapeChars s.data ++ ['"'])

/-- Decimal digit character for `d < 10`. -/
def dchar (d : Nat) : Char := Char.ofNat (48 + d)

/-- Big-endian decimal digits of `n`, accumulator style; `fuel ≥ n` suffices. -/
def natCharsAux : Nat → Nat → List Char → List Char
  | 0, _, acc => acc
  | fuel + 1, n, acc =>
    if n = 0 then acc
    else natCharsAux fuel (n / 10) (dchar (n % 10) :: acc)

/-- Decimal representation of a natural number, as `JSON.stringify` prints it. -/
def natChars (n : Nat) : List Char :=
  if n = 0 then ['0'] else natCharsAux n n []

/-- Decimal representation of an integer. -/
def intChars (i : Int) : List Char :=
  if i < 0 then '-' :: natChars i.natAbs else natChars i.natAbs

/-- `JSON.stringify` of one flat JSON value. -/
def jlitChars : JLit → List Char
  | .str s => quoteStr s
  | .num i => intChars i
  | .bool true => ['t', 'r', 'u', 'e']
  | .bool false => ['f', 'a', 'l', 's', 'e']
  | .null => ['n', 'u', 'l', 'l']

/-- `JSON.stringify` of the members of a flat JSON object (no spaces,
comma-separated, in insertion order, exactly as V8 prints it). -/
def membersChars : List (String × JLit) → List Char
  | [] => []
  | [(k, v)] => quoteStr k ++ ':' :: jlitChars v
  | (k, v) :: kv :: rest =>
    quoteStr k ++ ':' :: (jlitChars v ++ ',' :: membersChars (kv :: rest))

/-- `JSON.stringify` of a flat JSON object. -/
def stringifyFlat (kvs : List (String × JLit)) : String :=
  String.mk ('{' :: (membersChars kvs ++ ['}']))

/-- Value of one hexadecimal digit, as accepted by `JSON.parse` in `\uXXXX`. -/
def parseHex (c : Char) : Option Nat :=
  if '0' ≤ c ∧ c ≤ '9' then some (c.toNat - 48)
  else if 'a' ≤ c ∧ c ≤ 'f' then some (c.toNat - 87)
  else if 'A' ≤ c ∧ c ≤ 'F' then some (c.toNat - 55)
  else none

/-- Single-character escapes accepted by `JSON.parse`. -/
def unescChar (e : Char) : Option Char :=
  if e = '"' then some '"'
  else if e = '\\' then some '\\'
  else if e = '/' then some '/'
  else if e = 'b' then some '\x08'
  else if e = 't' then some '\t'
  else if e = 'n' then some '\n'
  else if e = 'f' then some '\x0c'
  else if e = 'r' then some '\r'
  else none

/-- `JSON.parse` of a string body (the opening quote has been consumed).
Returns the decoded characters and the input after the closing quote. -/
def parseStrBody : List Char → Option (List Char × List Char)
  | [] => none
  | c :: cs =>
    if c = '"' then some ([], cs)
    else if c = '\\' then
      match cs with
      | [] => none
      | e :: cs2 =>
        if e = 'u' then
          match cs2 with
          | a :: b :: c3 :: d :: cs3 =>
            match parseHex a, parseHex b, parseHex c3, parseHex d with
            | some ha, some hb, some hc, some hd =>
              (parseStrBody cs3).map
                (fun p => (Char.ofNat (((ha * 16 + hb) * 16 + hc) * 16 + hd) :: p.1, p.2))
            | _, _, _, _ => none
          | _ => none
        else
          match unescChar e with
          | some u => (parseStrBody cs2).map (fun p => (u :: p.1, p.2))
          | none => none
    else (parseStrBody cs).map (fun p => (c :: p.1, p.2))

/-- Numeric value of a decimal digit character. -/
def digitVal (c : Char) : Nat := c.toNat - 48

/-- `JSON.parse` of a natural number (a maximal run of decimal digits). -/
def parseNat (cs : List Char) : Option (Nat × List Char) :=
  let ds := cs.takeWhile Char.isDigit
  if ds = [] then none
  else some (Nat.ofDigits 10 ((ds.map digitVal).reverse), cs.dropWhile Char.isDigit)

/-- `JSON.parse` of one flat JSON value. -/
def parseJLit (cs : List Char) : Option (JLit × List Char) :=
  match cs with
  | [] => none
  | c :: rest =>
    if c = '"' then
      (parseStrBody rest).map (fun p => (JLit.str (String.mk p.1), p.2))
    else if c = '-' then
      (parseNat rest).map (fun p => (JLit.num (-(p.1 : Int)), p.2))
    else if c = 't' then
      match rest with
      | 'r' :: 'u' :: 'e' :: r => some (JLit.bool true, r)
      | _ => none
    else if c = 'f' then
      match rest with
      | 'a' :: 'l' :: 's' :: 'e' :: r => some (JLit.bool false, r)
      | _ => none
    else if c = 'n' then
      match rest with
      | 'u' :: 'l' :: 'l' :: r => some (JLit.null, r)
      | _ => none
    else
      (parseNat (c :: rest)).map (fun p => (JLit.num (p.1 : Int), p.2))

/-- `JSON.parse` of the members of a flat JSON object, after the opening
brace.  `fuel` bounds the number of members (the caller passes the input
length, which always suffices since every member consumes characters). -/
def parseMembers (fuel : Nat) (cs : List Char) : Option (List (String × JLit) × List Char) :=
  match cs with
  | '}' :: rest => some ([], rest)
  | '"' :: rest =>
    match fuel with
    | 0 => none
    | fuel' + 1 =>
      match parseStrBody rest with
      | none => none
      | some (k, rest1) =>
        match rest1 with
        | ':' :: rest2 =>
          match parseJLit rest2 with
          | none => none
          | some (v, rest3) =>
            match rest3 with
            | ',' :: '"' :: rest4 =>
              (parseMembers fuel' ('"' :: rest4)).map
                (fun p => ((String.mk k, v) :: p.1, p.2))
            | '}' :: rest4 => some ([(String.mk k, v)], rest4)
            | _ => none
        | _ => none
  | _ => none

/-- JSON whitespace. -/
def isJsonWs (c : Char) : Bool :=
  c = ' ' || c = '\t' || c = '\n' || c = '\r'

/-- `JSON.parse`, restricted to the flat objects this program exchanges
(an object whose values are strings, integers, booleans or null).  Any other
input is a parse failure, modelling the thrown `SyntaxError` as `none`. -/
def jsonParse (s : String) : Option (List (String × JLit)) :=
  match s.data.dropWhile isJsonWs with
  | '{' :: rest =>
    match parseMembers rest.length rest with
    | some (kvs, tail) => if tail.all isJsonWs then some kvs else none
    | none => none
  | _ => none

/-- Property access `obj[k]` on a parsed JSON object: the last binding of a
duplicated key wins (as in `JSON.parse`), a missing key is `undefined`
(`none`). -/
def lookupField (kvs : List (String × JLit)) (k : String) : Option JLit :=
  match kvs with
  | [] => none
  | (k', v) :: rest =>
    match lookupField rest k with
    | some r => some r
    | none => if k' = k then some v else none

/-! URL model (`new URL`, `searchParams.set`). -/

/-- A parsed URL: the part before any `?`, and the search parameters. -/
structure URLRec where
  base : String
  query : List (String × String)
deriving DecidableEq, Repr

/-- Split `scheme://rest`: characters before the first `:`, which must be
followed by `//`. -/
def splitScheme : List Char → Option (List Char × List Char)
  | [] => none
  | c :: cs =>
    if c = ':' then
      match cs with
      | '/' :: '/' :: rest => some ([], rest)
      | _ => none
    else (splitScheme cs).map (fun p => (c :: p.1, p.2))

/-- Split off the query part at the first `?`. -/
def splitQ : List Char → List Char × Option (List Char)
  | [] => ([], none)
  | c :: cs =>
    if c = '?' then ([], some cs)
    else
      let p := splitQ cs
      (c :: p.1, p.2)

/-- Split a character list on a separator character. -/
def splitOnChar (sep : Char) : List Char → List (List Char)
  | [] => [[]]
  | c :: cs =>
    if c = sep then [] :: splitOnChar sep cs
    else
      match splitOnChar sep cs with
      | [] => [[c]]
      | g :: gs => (c :: g) :: gs

/-- Split at the first `=` (no `=` gives an empty value). -/
def splitEq : List Char → List Char × List Char
  | [] => ([], [])
  | c :: cs =>
    if c = '=' then ([], cs)
    else
      let p := splitEq cs
      (c :: p.1, p.2)

/-- One `k=v` query pair. -/
def parsePair (cs : List Char) : String × String :=
  let p := splitEq cs
  (String.mk p.1, String.mk p.2)

/-- Model of the WHATWG `new URL(s)` constructor, simplified to absolute URLs
of the form `scheme://rest[?query]` with a non-empty alphabetic scheme; on any
other input the constructor throws, modelled as `none`. -/
def parseURL (s : String) : Option URLRec :=
  match splitScheme s.data with
  | none => none
  | some (scheme, rest) =>
    if scheme ≠ [] ∧ scheme.all Char.isAlpha ∧ rest ≠ [] then
      let p := splitQ rest
      some
        { base := String.mk (scheme ++ ':' :: '/' :: '/' :: p.1)
          query :=
            match p.2 with
            | none => []
            | some qs => (splitOnChar '&' qs).map parsePair }
    else none

/-- `url.searchParams.set(k, v)`: remove existing bindings of `k` and bind it
to `v` (the position of the surviving binding is not tracked). -/
def setParam (u : URLRec) (k v : String) : URLRec :=
  { u with query := u.query.filter (fun kv => kv.1 ≠ k) ++ [(k, v)] }

/-! Error taxonomy and classification (`discord-api.ts`). -/

/-- A thrown JavaScript value: an `Error` carrying its message, or any other
value carrying its `String(...)` rendering. -/
inductive JSError where
  | error (msg : String)
  | thrownValue (repr : String)
deriving DecidableEq, Repr

/-- The `DiscordWebhookError` union of `types.ts`.  The `webhook_error`
payload fields are `Option JLit` because they come out of `JSON.parse` of the
thrown message untyped: a parsed object may lack them (`undefined`, i.e.
`none`) or carry a non-number status. -/
inductive DiscordWebhookError where
  | webhook_error (status : Option JLit) (statusText : Option JLit) (body : Option JLit)
  | validation_error (field : String) (message : String)
  | unknown_error (message : String)
deriving DecidableEq, Repr

/-- JavaScript template-literal rendering of a value that may be `undefined`. -/
def jlitDisplay : JLit → String
  | .str s => s
  | .num n => String.mk (intChars n)
  | .bool true => "true"
  | .bool false => "false"
  | .null => "null"

/-- Rendering of `${x}` where `x : Option JLit` (`undefined` prints as
`"undefined"`). -/
def jsDisplay : Option JLit → String
  | none => "undefined"
  | some v => jlitDisplay v

/-- `formatError` of `discord-api.ts`. -/
def formatError : DiscordWebhookError → String
  | .webhook_error st stx b =>
    "Discord Webhook error: " ++ jsDisplay st ++ " " ++ jsDisplay stx ++ "\n" ++ jsDisplay b
  | .validation_error f m => "Validation error: " ++ f ++ " - " ++ m
  | .unknown_error m => "Unknown error: " ++ m

/-- `error.message.startsWith("\x7b")` as `convertError` tests it. -/
def startsWithLBrace (s : String) : Bool :=
  s.data.head? = some '{'

/-- `convertError` of `discord-api.ts`: an `Error` whose message starts with
`\x7b` and parses as JSON becomes a `webhook_error` built from the parsed
`status` / `statusText` / `body` properties; everything else becomes an
`unknown_error` carrying the message (or the `String(...)` rendering of a
non-`Error` throw). -/
def convertError (e : JSError) : DiscordWebhookError :=
  match e with
  | .error msg =>
    if startsWithLBrace msg then
      match jsonParse msg with
      | some parsed =>
        .webhook_error (lookupField parsed "status") (lookupField parsed "statusText")
          (lookupField parsed "body")
      | none => .unknown_error msg
    else .unknown_error msg
  | .thrownValue r => .unknown_error r

/-! Data model (`types.ts` / validated zod output). -/

/-- An embed field (`EmbedFieldSchema`); `inline` defaults to `false`. -/
structure EmbedField where
  name : String
  value : String
  inline : Bool
deriving DecidableEq, Repr

/-- An embed footer. -/
structure EmbedFooter where
  text : String
  icon_url : Option String
deriving DecidableEq, Repr

/-- An embed image / thumbnail. -/
structure EmbedMedia where
  url : String
deriving DecidableEq, Repr

/-- An embed author. -/
structure EmbedAuthor where
  name : String
  url : Option String
  icon_url : Option String
deriving DecidableEq, Repr

/-- A rich-content embed (`EmbedSchema`).  `color` is an `Int` since the zod
schema requires an integer. -/
structure Embed where
  title : Option String
  url : Option String
  description : Option String
  timestamp : Option String
  color : Option Int
  footer : Option EmbedFooter
  image : Option EmbedMedia
  thumbnail : Option EmbedMedia
  author : Option EmbedAuthor
  fields : Option (List EmbedField)
deriving DecidableEq, Repr

/-- A mention type in `allowed_mentions.parse`. -/
inductive MentionType where
  | roles
  | users
  | everyone
deriving DecidableEq, Repr

/-- `AllowedMentionsSchema`; `replied_user` defaults to `false`. -/
structure AllowedMentions where
  parse : Option (List MentionType)
  roles : Option (List String)
  users : Option (List String)
  replied_user : Bool
deriving DecidableEq, Repr

/-- Validated input of the `discord_send_message` tool (`SendMessageInput`);
`tts` defaults to `false`. -/
structure SendMessageInput where
  content : Option String
  username : Option String
  avatar_url : Option String
  tts : Bool
  embeds : Option (List Embed)
  allowed_mentions : Option AllowedMentions
  thread_id : Option String
  thread_name : Option String
deriving DecidableEq, Repr

/-- Validated input of the `discord_edit_message` tool (`EditMessageInput`). -/
structure EditMessageInput where
  message_id : String
  content : Option String
  embeds : Option (List Embed)
  allowed_mentions : Option AllowedMentions
deriving DecidableEq, Repr

/-- Validated input of the `discord_delete_message` tool. -/
structure DeleteMessageInput where
  message_id : String
deriving DecidableEq, Repr

/-- A value stored in the `payload` record the handlers build (the typed
value is stored as-is; serialisation happens later inside the transport). -/
inductive PayloadValue where
  | str (s : String)
  | bool (b : Bool)
  | embedList (es : List Embed)
  | mentions (m : AllowedMentions)
deriving DecidableEq, Repr

/-! Transport (`makeRequest` and the three exported operations). -/

/-- HTTP method, as `makeRequest` receives it. -/
inductive Method where
  | GET
  | POST
  | PATCH
  | DELETE
deriving DecidableEq, Repr

/-- Outcome of the single `fetch` call: either a response (status, status
text, raw body text) or a rejection of the fetch promise itself with a thrown
value. -/
inductive FetchResult where
  | response (status : Nat) (statusText : String) (bodyText : String)
  | networkFailure (e : JSError)
deriving DecidableEq, Repr

/-- The message `makeRequest` throws on a non-ok response:
`JSON.stringify({status, statusText, body})`. -/
def httpErrorMessage (status : Nat) (statusText bodyText : String) : String :=
  stringifyFlat
    [("status", JLit.num (status : Int)), ("statusText", JLit.str statusText),
      ("body", JLit.str bodyText)]

/-- The message of the `SyntaxError` thrown by `response.json()` on a body
that is not valid JSON.  Modelled as the fixed V8-style prefix; the only
property the code depends on is that it does not begin with `\x7b`. -/
def jsonDecodeErrorMessage : String := "Unexpected token in JSON"

/-- `makeRequest` of `discord-api.ts`: on a non-2xx status it throws an
`Error` whose message is the JSON-serialised `{status, statusText, body}`
(the raw body text passed through verbatim); for `DELETE` it returns
`undefined` without reading the body; otherwise it parses the body as JSON,
a decode failure being a thrown `SyntaxError`.  The `Except` error channel is
the JavaScript exception. -/
def makeRequest (outcome : FetchResult) (method : Method) :
    Except JSError (Option (List (String × JLit))) :=
  match outcome with
  | .networkFailure e => .error e
  | .response status statusText bodyText =>
    if 200 ≤ status ∧ status ≤ 299 then
      if method = .DELETE then .ok none
      else
        match jsonParse bodyText with
        | some v => .ok (some v)
        | none => .error (.error jsonDecodeErrorMessage)
    else .error (.error (httpErrorMessage status statusText bodyText))

/-- Message of the `TypeError` thrown by `new URL` on malformed input. -/
def invalidURLMessage : String := "Invalid URL"

/-- The `{result, error}` pair returned by `sendToDiscord` and
`editDiscordMessage`. -/
structure SendOutcome where
  result : Option (List (String × JLit))
  error : Option DiscordWebhookError
deriving DecidableEq, Repr

/-- The URL `sendToDiscord` builds: `new URL(WEBHOOK_URL)`, then
`searchParams.set("wait", "true")` when `wait`, then
`searchParams.set("thread_id", threadId)` when `threadId` is truthy
(present and non-empty).  `none` when the constructor throws. -/
def buildSendUrl (webhookUrl : String) (wait : Bool) (threadId : Option String) :
    Option URLRec :=
  match parseURL webhookUrl with
  | none => none
  | some u =>
    let u := if wait then setParam u "wait" "true" else u
    some
      (match threadId with
        | some t => if t = "" then u else setParam u "thread_id" t
        | none => u)

/-- `sendToDiscord` of `discord-api.ts`.  `new URL(WEBHOOK_URL)` runs outside
the `try`, so a malformed webhook URL propagates on the `Except` error
channel; everything thrown inside the `try` is converted by `convertError`
and returned in the `error` field. -/
def sendToDiscord (webhookUrl : String) (_payload : List (String × PayloadValue))
    (wait : Bool) (threadId : Option String) (outcome : FetchResult) :
    Except JSError SendOutcome :=
  match buildSendUrl webhookUrl wait threadId with
  | none => .error (.error invalidURLMessage)
  | some _url =>
    match makeRequest outcome .POST with
    | .ok r => .ok { result := r, error := none }
    | .error e => .ok { result := none, error := some (convertError e) }

/-- `editDiscordMessage` of `discord-api.ts`:
`new URL(WEBHOOK_URL + "/messages/" + messageId)` outside the `try`, then a
`PATCH` whose parsed response is the result. -/
def editDiscordMessage (webhookUrl messageId : String)
    (_payload : List (String × PayloadValue)) (outcome : FetchResult) :
    Except JSError SendOutcome :=
  match parseURL (webhookUrl ++ "/messages/" ++ messageId) with
  | none => .error (.error invalidURLMessage)
  | some _url =>
    match makeRequest outcome .PATCH with
    | .ok r => .ok { result := r, error := none }
    | .error e => .ok { result := none, error := some (convertError e) }

/-- `deleteDiscordMessage` of `discord-api.ts`: a `DELETE` addressed by
message id; the response body is never parsed, success returns `{}`. -/
def deleteDiscordMessage (webhookUrl messageId : String) (outcome : FetchResult) :
    Except JSError (Option DiscordWebhookError) :=
  match parseURL (webhookUrl ++ "/messages/" ++ messageId) with
  | none => .error (.error invalidURLMessage)
  | some _url =>
    match makeRequest outcome .DELETE with
    | .ok _ => .ok none
    | .error e => .ok (some (convertError e))

/-! Schema validation (`schemas.ts`).  String `.length` bounds use the
character count; `z.string().url()` is `new URL` succeeding. -/

/-- `z.string().url()` on an optional field. -/
def validOptURL : Option String → Bool
  | none => true
  | some s => (parseURL s).isSome

/-- `EmbedFieldSchema`: `name` and `value` are non-empty strings. -/
def validEmbedField (f : EmbedField) : Bool :=
  decide (1 ≤ f.name.length) && decide (1 ≤ f.value.length)

/-- Footer object of `EmbedSchema`: `text` 1..2048, optional icon URL. -/
def validEmbedFooter (f : EmbedFooter) : Bool :=
  decide (1 ≤ f.text.length) && decide (f.text.length ≤ 2048) && validOptURL f.icon_url

/-- Author object of `EmbedSchema`: `name` 1..256, optional URLs. -/
def validEmbedAuthor (a : EmbedAuthor) : Bool :=
  decide (1 ≤ a.name.length) && decide (a.name.length ≤ 256) && validOptURL a.url
    && validOptURL a.icon_url

/-- Image / thumbnail object of `EmbedSchema`: a well-formed URL. -/
def validEmbedMedia (m : EmbedMedia) : Bool :=
  (parseURL m.url).isSome

/-- `EmbedSchema`: title ≤ 256, description ≤ 4096, URL fields well-formed,
integer color in `[0, 16777215]`, at most 25 valid fields. -/
def validEmbed (e : Embed) : Bool :=
  (match e.title with
    | some t => decide (t.length ≤ 256)
    | none => true)
  && validOptURL e.url
  && (match e.description with
    | some d => decide (d.length ≤ 4096)
    | none => true)
  && (match e.color with
    | some c => decide (0 ≤ c) && decide (c ≤ 16777215)
    | none => true)
  && (match e.footer with
    | some f => validEmbedFooter f
    | none => true)
  && (match e.image with
    | some m => validEmbedMedia m
    | none => true)
  && (match e.thumbnail with
    | some m => validEmbedMedia m
    | none => true)
  && (match e.author with
    | some a => validEmbedAuthor a
    | none => true)
  && (match e.fields with
    | some fs => decide (fs.length ≤ 25) && fs.all validEmbedField
    | none => true)

/-- `SendMessageSchema`: content 1..2000, username ≤ 80, avatar URL
well-formed, at most 10 valid embeds, thread name ≤ 100.  (`allowed_mentions`
and `thread_id` carry no further constraints beyond their shape, which the
typed record already guarantees.) -/
def validSendMessageInput (p : SendMessageInput) : Bool :=
  (match p.content with
    | some s => decide (1 ≤ s.length) && decide (s.length ≤ 2000)
    | none => true)
  && (match p.username with
    | some u => decide (u.length ≤ 80)
    | none => true)
  && validOptURL p.avatar_url
  && (match p.embeds with
    | some es => decide (es.length ≤ 10) && es.all validEmbed
    | none => true)
  && (match p.thread_name with
    | some t => decide (t.length ≤ 100)
    | none => true)

/-- `EditMessageSchema`: non-empty message id, content 1..2000, at most 10
valid embeds. -/
def validEditMessageInput (q : EditMessageInput) : Bool :=
  decide (1 ≤ q.message_id.length)
  && (match q.content with
    | some s => decide (1 ≤ s.length) && decide (s.length ≤ 2000)
    | none => true)
  && (match q.embeds with
    | some es => decide (es.length ≤ 10) && es.all validEmbed
    | none => true)

/-! Tool handlers (`index.ts`).  Each handler is split at its single `await`:
phase 1 (validation and payload construction, pure) either responds directly
or requests the network call; phase 2 maps the call's outcome to the tool
result.  The composed handler threads the `FetchResult` oracle through. -/

/-- `params.content && params.content.length > 0` (a string is truthy exactly
when non-empty, so this is "present and non-empty"). -/
def hasContentB (o : Option String) : Bool :=
  match o with
  | some s => decide (0 < s.length)
  | none => false

/-- `params.embeds && params.embeds.length > 0`. -/
def hasEmbedsB (o : Option (List Embed)) : Bool :=
  match o with
  | some es => decide (0 < es.length)
  | none => false

/-- JavaScript truthiness of an optional string (`if (params.username)`). -/
def truthyOptStr (o : Option String) : Bool :=
  match o with
  | some s => decide (s ≠ "")
  | none => false

/-- `if (b) payload.k = v`: one conditional entry of the payload record. -/
def condEntry (b : Bool) (k : String) (v : PayloadValue) : List (String × PayloadValue) :=
  if b then [(k, v)] else []

/-- Default used only to carry a value under a `false` condition. -/
def emptyMentions : AllowedMentions :=
  { parse := none, roles := none, users := none, replied_user := false }

/-- The send payload record, built key by key exactly in source order:
content, username, avatar_url, tts, embeds, allowed_mentions, thread_name.
`thread_id` is never written into it. -/
def buildSendPayload (p : SendMessageInput) : List (String × PayloadValue) :=
  condEntry (hasContentB p.content) "content" (.str (p.content.getD ""))
    ++ condEntry (truthyOptStr p.username) "username" (.str (p.username.getD ""))
    ++ condEntry (truthyOptStr p.avatar_url) "avatar_url" (.str (p.avatar_url.getD ""))
    ++ condEntry p.tts "tts" (.bool p.tts)
    ++ condEntry (hasEmbedsB p.embeds) "embeds" (.embedList (p.embeds.getD []))
    ++ condEntry p.allowed_mentions.isSome "allowed_mentions"
      (.mentions (p.allowed_mentions.getD emptyMentions))
    ++ condEntry (truthyOptStr p.thread_name) "thread_name" (.str (p.thread_name.getD ""))

/-- The keys of the send payload record. -/
def sendPayloadKeys (p : SendMessageInput) : List String :=
  (buildSendPayload p).map Prod.fst

/-- The edit payload record: content, embeds, allowed_mentions only. -/
def buildEditPayload (q : EditMessageInput) : List (String × PayloadValue) :=
  condEntry (hasContentB q.content) "content" (.str (q.content.getD ""))
    ++ condEntry (hasEmbedsB q.embeds) "embeds" (.embedList (q.embeds.getD []))
    ++ condEntry q.allowed_mentions.isSome "allowed_mentions"
      (.mentions (q.allowed_mentions.getD emptyMentions))

/-- The keys of the edit payload record. -/
def editPayloadKeys (q : EditMessageInput) : List String :=
  (buildEditPayload q).map Prod.fst

/-- The `structuredContent` object of a tool result. -/
structure StructuredContent where
  success : Bool
  message_id : Option JLit
  channel_id : Option JLit
  timestamp : Option JLit
deriving DecidableEq, Repr

/-- A tool handler result: the text content item, the `isError` flag and the
optional `structuredContent`. -/
structure ToolResult where
  text : String
  isError : Bool
  structuredContent : Option StructuredContent
deriving DecidableEq, Repr

/-- The early result both the send and the edit handler return when neither
`content` nor `embeds` is given: a plain text item with `isError`, and no
`structuredContent` (in particular no `validation_error` value and no
`"content/embeds"` field identifier). -/
def missingContentResult : ToolResult :=
  { text := "エラー: content、embeds のうち最低1つを指定してください"
    isError := true
    structuredContent := none }

/-- What the send handler does before its `await`. -/
inductive SendAction where
  | respond (r : ToolResult)
  | callSend (payload : List (String × PayloadValue)) (wait : Bool) (threadId : Option String)
deriving DecidableEq, Repr

/-- `discord_send_message` up to the `await`: reject when neither content nor
embeds, otherwise call `sendToDiscord(payload, true, params.thread_id)`. -/
def sendPhase1 (p : SendMessageInput) : SendAction :=
  if hasContentB p.content = false ∧ hasEmbedsB p.embeds = false then
    .respond missingContentResult
  else .callSend (buildSendPayload p) true p.thread_id

/-- `discord_send_message` after the `await`. -/
def sendPhase2 (out : SendOutcome) : ToolResult :=
  match out.error with
  | some e =>
    { text := "エラー: " ++ formatError e, isError := true, structuredContent := none }
  | none =>
    { text :=
        match out.result with
        | some kvs =>
          "メッセージを送信しました\nID: " ++ jsDisplay (lookupField kvs "id")
            ++ "\nチャンネル: " ++ jsDisplay (lookupField kvs "channel_id")
        | none => "メッセージを送信しました"
      isError := false
      structuredContent := some
        { success := true
          message_id := out.result.bind (fun kvs => lookupField kvs "id")
          channel_id := out.result.bind (fun kvs => lookupField kvs "channel_id")
          timestamp := out.result.bind (fun kvs => lookupField kvs "timestamp") } }

/-- The composed `discord_send_message` handler; a `.error` value is an
exception escaping the handler. -/
def discord_send_message (webhookUrl : String) (p : SendMessageInput)
    (outcome : FetchResult) : Except JSError ToolResult :=
  match sendPhase1 p with
  | .respond r => .ok r
  | .callSend payload wait tid =>
    match sendToDiscord webhookUrl payload wait tid outcome with
    | .error e => .error e
    | .ok out => .ok (sendPhase2 out)

/-- What the edit handler does before its `await`. -/
inductive EditAction where
  | respond (r : ToolResult)
  | callEdit (messageId : String) (payload : List (String × PayloadValue))
deriving DecidableEq, Repr

/-- `discord_edit_message` up to the `await`. -/
def editPhase1 (q : EditMessageInput) : EditAction :=
  if hasContentB q.content = false ∧ hasEmbedsB q.embeds = false then
    .respond missingContentResult
  else .callEdit q.message_id (buildEditPayload q)

/-- `discord_edit_message` after the `await` (`if (error || !result)`). -/
def editPhase2 (out : SendOutcome) : ToolResult :=
  match out.error, out.result with
  | some e, _ =>
    { text := "エラー: " ++ formatError e, isError := true, structuredContent := none }
  | none, none =>
    { text := "エラー: メッセージの編集に失敗しました", isError := true
      structuredContent := none }
  | none, some kvs =>
    { text := "メッセージを編集しました\nID: " ++ jsDisplay (lookupField kvs "id")
      isError := false
      structuredContent := some
        { success := true
          message_id := lookupField kvs "id"
          channel_id := none
          timestamp := lookupField kvs "timestamp" } }

/-- The composed `discord_edit_message` handler. -/
def discord_edit_message (webhookUrl : String) (q : EditMessageInput)
    (outcome : FetchResult) : Except JSError ToolResult :=
  match editPhase1 q with
  | .respond r => .ok r
  | .callEdit mid payload =>
    match editDiscordMessage webhookUrl mid payload outcome with
    | .error e => .error e
    | .ok out => .ok (editPhase2 out)

/-- The composed `discord_delete_message` handler. -/
def discord_delete_message (webhookUrl : String) (p : DeleteMessageInput)
    (outcome : FetchResult) : Except JSError ToolResult :=
  match deleteDiscordMessage webhookUrl p.message_id outcome with
  | .error e => .error e
  | .ok (some err) =>
    .ok { text := "エラー: " ++ formatError err, isError := true, structuredContent := none }
  | .ok none =>
    .ok
      { text := "メッセージを削除しました\nID: " ++ p.message_id
        isError := false
        structuredContent := some
          { success := true, message_id := some (.str p.message_id), channel_id := none
            timestamp := none } }

/-- The MCP framework validates tool arguments against the registered zod
schema before the handler runs: an invalid input is rejected there and the
handler (and with it any network call) is never reached.  Modelled as the
schema gate in front of `sendPhase1`. -/
def sendToolPipeline (p : SendMessageInput) : Option SendAction :=
  if validSendMessageInput p then some (sendPhase1 p) else none

/-- Schema gate in front of `editPhase1`. -/
def editToolPipeline (q : EditMessageInput) : Option EditAction :=
  if validEditMessageInput q then some (editPhase1 q) else none

/-- True when the list does not begin with a decimal digit, so a digit run
parsed before it stops exactly there. -/
def headNotDigit (cs : List Char) : Bool :=
  match cs with
  | [] => true
  | c :: _ => !c.isDigit

/-- The bound obligations of the C4 claim, stated over one embed. -/
def embedWithinBounds (e : Embed) : Prop :=
  (∀ t, e.title = some t → t.length ≤ 256)
  ∧ (∀ d, e.description = some d → d.length ≤ 4096)
  ∧ (∀ f, e.footer = some f → f.text.length ≤ 2048)
  ∧ (∀ a, e.author = some a → a.name.length ≤ 256)
  ∧ (∀ fs, e.fields = some fs → fs.length ≤ 25)
  ∧ (∀ col, e.color = some col → 0 ≤ col ∧ col ≤ 16777215)

/-- A well-formed webhook URL used to instantiate the theorems. -/
def testWebhookUrl : String := "https://discord.com/api/webhooks/1/t"

/-- A minimal valid send input targeting a thread. -/
def testSendInput : SendMessageInput :=
  { content := some "hi", username := none, avatar_url := none, tts := false,
    embeds := none, allowed_mentions := none, thread_id := some "777",
    thread_name := none }

/-- A send input with neither content nor embeds. -/
def emptySendInput : SendMessageInput :=
  { content := none, username := none, avatar_url := none, tts := false,
    embeds := none, allowed_mentions := none, thread_id := none,
    thread_name := none }

/-- A send input the schema rejects (content present but empty violates
`min(1)`). -/
def invalidSendInput : SendMessageInput :=
  { content := some "", username := none, avatar_url := none, tts := false,
    embeds := none, allowed_mentions := none, thread_id := none,
    thread_name := none }

/-- A minimal valid edit input. -/
def testEditInput : EditMessageInput :=
  { message_id := "42", content := some "new", embeds := none, allowed_mentions := none }

/-- An edit input with neither content nor embeds. -/
def emptyEditInput : EditMessageInput :=
  { message_id := "42", content := none, embeds := none, allowed_mentions := none }

/-- An edit input the schema rejects (content over 2000 characters). -/
def invalidEditInput : EditMessageInput :=
  { message_id := "42", content := some (String.mk (List.replicate 2001 'a')),
    embeds := none, allowed_mentions := none }

/-! Round-trip lemmas: `JSON.parse` recovers exactly what `JSON.stringify`
produced, for the flat objects the client exchanges. -/

theorem parseHex_hexDigitChar (n : Nat) (h : n < 16) :
    parseHex (hexDigitChar n) = some n := by
  interval_cases n <;> decide

theorem parseStrBody_escape (l rest : List Char) :
    parseStrBody (escapeChars l ++ '"' :: rest) = some (l, rest) := by
  induction l with
  | nil =>
    simp only [escapeChars, List.nil_append]
    rw [parseStrBody.eq_def]
    simp
  | cons c cs ih =>
    simp only [escapeChars, List.append_assoc]
    unfold escChar
    have h0 : parseHex '0' = some 0 := by decide
    split_ifs with h1 h2 h3 h4 h5 h6 h7 h8
    · subst h1
      rw [List.cons_append, List.cons_append, parseStrBody.eq_def]
      simp [unescChar, ih]
    · subst h2
      rw [List.cons_append, List.cons_append, parseStrBody.eq_def]
      simp [unescChar, ih]
    · subst h3
      rw [List.cons_append, List.cons_append, parseStrBody.eq_def]
      simp [unescChar, ih]
    · subst h4
      rw [List.cons_append, List.cons_append, parseStrBody.eq_def]
      simp [unescChar, ih]
    · subst h5
      rw [List.cons_append, List.cons_append, parseStrBody.eq_def]
      simp [unescChar, ih]
    · subst h6
      rw [List.cons_append, List.cons_append, parseStrBody.eq_def]
      simp [unescChar, ih]
    · subst h7
      rw [List.cons_append, List.cons_append, parseStrBody.eq_def]
      simp [unescChar, ih]
    · have hdiv : c.toNat / 16 < 16 := by omega
      have hmod : c.toNat % 16 < 16 := Nat.mod_lt _ (by norm_num)
      have hval : c.toNat / 16 * 16 + c.toNat % 16 = c.toNat := by omega
      rw [List.cons_append, parseStrBody.eq_def]
      simp [h0, parseHex_hexDigitChar _ hdiv, parseHex_hexDigitChar _ hmod, ih, hval,
        Char.ofNat_toNat]
    · rw [List.cons_append, parseStrBody.eq_def]
      simp [h1, h2, ih]

theorem takeWhile_append_eq (p : Char → Bool) (xs ys : List Char)
    (hx : ∀ c ∈ xs, p c = true) (hy : ∀ c, ys.head? = some c → p c = false) :
    (xs ++ ys).takeWhile p = xs ∧ (xs ++ ys).dropWhile p = ys := by
  induction xs with
  | nil =>
    cases ys with
    | nil => simp
    | cons c t => simp [List.takeWhile_cons, List.dropWhile_cons, hy c rfl]
  | cons x xs ih =>
    have hx0 : p x = true := hx x (by simp)
    have ih2 := ih (fun c hc => hx c (by simp [hc]))
    simp [List.takeWhile_cons, List.dropWhile_cons, hx0, ih2.1, ih2.2]

theorem natCharsAux_zero (fuel : Nat) (acc : List Char) :
    natCharsAux fuel 0 acc = acc := by
  cases fuel <;> simp [natCharsAux]

theorem natCharsAux_append (fuel : Nat) : ∀ (n : Nat) (acc : List Char),
    natCharsAux fuel n acc = natCharsAux fuel n [] ++ acc := by
  induction fuel with
  | zero => intro n acc; simp [natCharsAux]
  | succ f ih =>
    intro n acc
    by_cases h : n = 0
    · simp [natCharsAux, h]
    · simp only [natCharsAux, if_neg h]
      rw [ih (n / 10) (dchar (n % 10) :: acc), ih (n / 10) [dchar (n % 10)]]
      simp

theorem natCharsAux_digits (fuel : Nat) : ∀ n : Nat, 0 < n → n ≤ fuel →
    natCharsAux fuel n [] = (Nat.digits 10 n).reverse.map dchar := by
  induction fuel with
  | zero => intro n h0 hf; omega
  | succ f ih =>
    intro n h0 hf
    have hne : n ≠ 0 := by omega
    simp only [natCharsAux, if_neg hne]
    rw [natCharsAux_append, Nat.digits_def' (by norm_num : (1 : ℕ) < 10) h0]
    simp only [List.reverse_cons, List.map_append, List.map_cons, List.map_nil]
    by_cases hq : n / 10 = 0
    · rw [hq, natCharsAux_zero]
      simp [hq]
    · have hlt : n / 10 < n := Nat.div_lt_self h0 (by norm_num)
      rw [ih (n / 10) (Nat.pos_of_ne_zero hq) (by omega)]

theorem natChars_digits_eq (n : Nat) (h : n ≠ 0) :
    natChars n = (Nat.digits 10 n).reverse.map dchar := by
  unfold natChars
  rw [if_neg h]
  exact natCharsAux_digits n n (Nat.pos_of_ne_zero h) le_rfl

theorem dchar_isDigit (d : Nat) (h : d < 10) : (dchar d).isDigit = true := by
  interval_cases d <;> decide

theorem digitVal_dchar (d : Nat) (h : d < 10) : digitVal (dchar d) = d := by
  interval_cases d <;> decide

theorem natChars_all_digits (n : Nat) : ∀ c ∈ natChars n, c.isDigit = true := by
  intro c hc
  unfold natChars at hc
  by_cases h : n = 0
  · simp [h] at hc
    subst hc; decide
  · rw [if_neg h, natCharsAux_digits n n (Nat.pos_of_ne_zero h) le_rfl] at hc
    simp only [List.mem_map, List.mem_reverse] at hc
    obtain ⟨d, hd, rfl⟩ := hc
    exact dchar_isDigit d (Nat.digits_lt_base (by norm_num) hd)

theorem natChars_ne_nil (n : Nat) : natChars n ≠ [] := by
  unfold natChars
  by_cases h : n = 0
  · simp [h]
  · rw [if_neg h, natCharsAux_digits n n (Nat.pos_of_ne_zero h) le_rfl]
    simp [Nat.digits_ne_nil_iff_ne_zero.mpr h]

theorem map_digitVal_dchar (l : List Nat) (hl : ∀ d ∈ l, d < 10) :
    l.map (fun d => digitVal (dchar d)) = l := by
  induction l with
  | nil => simp
  | cons d t ih =>
    simp only [List.map_cons]
    rw [digitVal_dchar d (hl d (by simp)), ih (fun x hx => hl x (by simp [hx]))]

theorem parseNat_natChars (n : Nat) (rest : List Char) (hrest : headNotDigit rest = true) :
    parseNat (natChars n ++ rest) = some (n, rest) := by
  have hall : ∀ c ∈ natChars n, c.isDigit = true := natChars_all_digits n
  have hhead : ∀ c, rest.head? = some c → c.isDigit = false := by
    intro c hc
    cases rest with
    | nil => simp at hc
    | cons r t =>
      simp only [List.head?_cons, Option.some.injEq] at hc
      subst hc
      simpa [headNotDigit] using hrest
  obtain ⟨htake, hdrop⟩ := takeWhile_append_eq Char.isDigit (natChars n) rest hall hhead
  unfold parseNat
  simp only [htake, hdrop, if_neg (natChars_ne_nil n)]
  by_cases h : n = 0
  · subst h
    simp [natChars, digitVal, Nat.ofDigits]
  · rw [natChars_digits_eq n h]
    rw [List.map_map]
    have hcomp : (Nat.digits 10 n).reverse.map (digitVal ∘ dchar) = (Nat.digits 10 n).reverse := by
      have := map_digitVal_dchar (Nat.digits 10 n).reverse
        (fun d hd => Nat.digits_lt_base (by norm_num) (List.mem_reverse.mp hd))
      simpa [Function.comp] using this
    rw [hcomp, List.reverse_reverse, Nat.ofDigits_digits]

theorem isDigit_ne_specials (c : Char) (h : c.isDigit = true) :
    c ≠ '"' ∧ c ≠ '-' ∧ c ≠ 't' ∧ c ≠ 'f' ∧ c ≠ 'n' := by
  refine ⟨?_, ?_, ?_, ?_, ?_⟩ <;> intro hc <;> subst hc <;> exact absurd h (by decide)

theorem parseJLit_jlitChars (v : JLit) (rest : List Char) (hrest : headNotDigit rest = true) :
    parseJLit (jlitChars v ++ rest) = some (v, rest) := by
  cases v with
  | str s =>
    simp only [jlitChars, quoteStr, List.cons_append, List.append_assoc, List.singleton_append]
    rw [parseJLit.eq_def]
    simp [parseStrBody_escape]
  | num i =>
    by_cases hneg : i < 0
    · simp only [jlitChars, intChars, if_pos hneg, List.cons_append]
      rw [parseJLit.eq_def]
      simp [parseNat_natChars i.natAbs rest hrest]
      rw [abs_of_neg hneg]
      ring
    · simp only [jlitChars, intChars, if_neg hneg]
      rcases hcn : natChars i.natAbs with _ | ⟨c, t⟩
      · exact absurd hcn (natChars_ne_nil _)
      · have hdig : c.isDigit = true := by
          apply natChars_all_digits i.natAbs
          rw [hcn]
          simp
        obtain ⟨hq, hm, ht, hf, hn⟩ := isDigit_ne_specials c hdig
        simp only [List.cons_append]
        rw [parseJLit.eq_def]
        simp only [hq, hm, ht, hf, hn, if_neg, ite_false, if_false]
        rw [show c :: (t ++ rest) = natChars i.natAbs ++ rest by rw [hcn]; rfl]
        have hi : ((i.natAbs : Int)) = i := by omega
        simp [parseNat_natChars i.natAbs rest hrest, hi]
  | bool b =>
    cases b <;>
      · simp only [jlitChars, List.cons_append]
        rw [parseJLit.eq_def]
        simp
  | null =>
    simp only [jlitChars, List.cons_append]
    rw [parseJLit.eq_def]
    simp

theorem parseMembers_last (f : Nat) (k : String) (v : JLit) (rest : List Char) :
    parseMembers (f + 1) ('"' :: (escapeChars k.data ++ '"' :: ':' :: (jlitChars v ++ '}' :: rest)))
      = some ([(k, v)], rest) := by
  rw [parseMembers.eq_def]
  split
  · rename_i heq
    simp at heq
  · rename_i rest2 heq
    injection heq with h1 h2
    subst h2
    rw [parseStrBody_escape]
    split
    · rename_i hf
      omega
    · rename_i fuel' hf
      simp [parseJLit_jlitChars v ('}' :: rest) rfl]
  · rename_i h1 h2
    exact absurd rfl (h2 _)

theorem parseMembers_more (f : Nat) (k : String) (v : JLit) (cs rest : List Char)
    (kvs : List (String × JLit))
    (hrec : parseMembers f ('"' :: cs) = some (kvs, rest)) :
    parseMembers (f + 1)
      ('"' :: (escapeChars k.data ++ '"' :: ':' :: (jlitChars v ++ ',' :: '"' :: cs)))
      = some ((k, v) :: kvs, rest) := by
  rw [parseMembers.eq_def]
  split
  · rename_i heq
    simp at heq
  · rename_i rest2 heq
    injection heq with h1 h2
    subst h2
    rw [parseStrBody_escape]
    split
    · rename_i hf
      omega
    · rename_i fuel' hf
      have hff : fuel' = f := by omega
      subst hff
      simp [parseJLit_jlitChars v (',' :: '"' :: cs) rfl, hrec]
  · rename_i h1 h2
    exact absurd rfl (h2 _)


theorem parseMembers_membersChars (kvs : List (String × JLit)) :
    ∀ (fuel : Nat) (rest : List Char), kvs.length ≤ fuel →
      parseMembers fuel (membersChars kvs ++ '}' :: rest) = some (kvs, rest) := by
  induction kvs with
  | nil =>
    intro fuel rest _
    simp only [membersChars, List.nil_append]
    rw [parseMembers.eq_def]
    split <;> simp_all
  | cons kv tail ih =>
    intro fuel rest h
    obtain ⟨k, v⟩ := kv
    cases fuel with
    | zero => simp at h
    | succ f =>
      cases tail with
      | nil =>
        have hshape : membersChars [(k, v)] ++ '}' :: rest
            = '"' :: (escapeChars k.data ++ '"' :: ':' :: (jlitChars v ++ '}' :: rest)) := by
          simp [membersChars, quoteStr]
        rw [hshape]
        exact parseMembers_last f k v rest
      | cons kv2 t2 =>
        obtain ⟨k2, v2⟩ := kv2
        have ih2 := ih f rest (by simp only [List.length_cons] at h ⊢; omega)
        obtain ⟨cs2, hcs2⟩ : ∃ cs2, membersChars ((k2, v2) :: t2) = '"' :: cs2 := by
          cases t2 with
          | nil =>
            exact ⟨escapeChars k2.data ++ '"' :: ':' :: jlitChars v2,
              by simp [membersChars, quoteStr]⟩
          | cons kv3 t3 =>
            exact ⟨escapeChars k2.data ++ '"' :: ':'
                :: (jlitChars v2 ++ ',' :: membersChars (kv3 :: t3)),
              by simp [membersChars, quoteStr]⟩
        have hshape : membersChars ((k, v) :: (k2, v2) :: t2) ++ '}' :: rest
            = '"' :: (escapeChars k.data ++ '"' :: ':'
                :: (jlitChars v ++ ',' :: '"' :: (cs2 ++ '}' :: rest))) := by
          simp [membersChars, quoteStr, hcs2]
        rw [hshape]
        refine parseMembers_more f k v (cs2 ++ '}' :: rest) rest ((k2, v2) :: t2) ?_
        rw [← List.cons_append, ← hcs2]
        exact ih2

theorem membersChars_length (kvs : List (String × JLit)) :
    kvs.length ≤ (membersChars kvs).length := by
  induction kvs with
  | nil => simp [membersChars]
  | cons kv tail ih =>
    obtain ⟨k, v⟩ := kv
    cases tail with
    | nil => simp [membersChars, quoteStr]
    | cons kv2 t2 =>
      simp only [membersChars, quoteStr, List.length_cons, List.length_append] at ih ⊢
      omega

theorem jsonParse_stringifyFlat (kvs : List (String × JLit)) :
    jsonParse (stringifyFlat kvs) = some kvs := by
  unfold jsonParse stringifyFlat
  have hdata : (String.mk ('{' :: (membersChars kvs ++ ['}']))).data
      = '{' :: (membersChars kvs ++ ['}']) := rfl
  rw [hdata]
  have hdrop : ('{' :: (membersChars kvs ++ ['}'])).dropWhile isJsonWs
      = '{' :: (membersChars kvs ++ ['}']) := by
    rw [List.dropWhile_cons]
    simp [isJsonWs]
  rw [hdrop]
  have hlen : kvs.length ≤ (membersChars kvs ++ ['}']).length := by
    have := membersChars_length kvs
    simp only [List.length_append, List.length_cons, List.length_nil]
    omega
  have hmem := parseMembers_membersChars kvs (membersChars kvs ++ ['}']).length [] hlen
  simp only [show membersChars kvs ++ ['}'] = membersChars kvs ++ '}' :: [] from rfl] at hmem ⊢
  rw [hmem]
  simp

theorem convertError_error_def (msg : String) :
    convertError (JSError.error msg)
      = if startsWithLBrace msg = true then
          match jsonParse msg with
          | some parsed =>
            DiscordWebhookError.webhook_error (lookupField parsed "status")
              (lookupField parsed "statusText") (lookupField parsed "body")
          | none => DiscordWebhookError.unknown_error msg
        else DiscordWebhookError.unknown_error msg := rfl

theorem startsWithLBrace_stringifyFlat (kvs : List (String × JLit)) :
    startsWithLBrace (stringifyFlat kvs) = true := rfl

/-- The error classifier recovers exactly the status, status text and body
that `makeRequest` serialised into the thrown message. -/
theorem convertError_httpErrorMessage (st : Nat) (stx body : String) :
    convertError (JSError.error (httpErrorMessage st stx body))
      = DiscordWebhookError.webhook_error (some (JLit.num (st : Int)))
          (some (JLit.str stx)) (some (JLit.str body)) := by
  unfold convertError httpErrorMessage
  simp only [startsWithLBrace_stringifyFlat, if_true, jsonParse_stringifyFlat]
  rfl

theorem makeRequest_httpError (st : Nat) (stx body : String) (m : Method)
    (h : ¬(200 ≤ st ∧ st ≤ 299)) :
    makeRequest (FetchResult.response st stx body) m
      = Except.error (JSError.error (httpErrorMessage st stx body)) := by
  unfold makeRequest
  simp only [if_neg h]

/-! Claim theorems. -/

/-- C3: for every HTTP response with a non-2xx status, each of the three
operations returns a `webhook_error` carrying the response status code,
status text and raw body verbatim; and the simulated 404 / "Not Found" /
"Unknown Message" response formats as
"Discord Webhook error: 404 Not Found\nUnknown Message". -/
theorem claim_C3 (wu mid : String) (pl plE : List (String × PayloadValue)) (w : Bool)
    (tid : Option String) (st : Nat) (stx body : String)
    (hst : ¬(200 ≤ st ∧ st ≤ 299)) :
    ((parseURL wu).isSome = true →
      sendToDiscord wu pl w tid (.response st stx body)
        = .ok { result := none,
                error := some (.webhook_error (some (.num (st : Int)))
                  (some (.str stx)) (some (.str body))) })
    ∧ ((parseURL (wu ++ "/messages/" ++ mid)).isSome = true →
      editDiscordMessage wu mid plE (.response st stx body)
        = .ok { result := none,
                error := some (.webhook_error (some (.num (st : Int)))
                  (some (.str stx)) (some (.str body))) })
    ∧ ((parseURL (wu ++ "/messages/" ++ mid)).isSome = true →
      deleteDiscordMessage wu mid (.response st stx body)
        = .ok (some (.webhook_error (some (.num (st : Int)))
            (some (.str stx)) (some (.str body)))))
    ∧ formatError (.webhook_error (some (.num 404)) (some (.str "Not Found"))
          (some (.str "Unknown Message")))
        = "Discord Webhook error: 404 Not Found\nUnknown Message" := by
  refine ⟨?_, ?_, ?_, by decide⟩
  · intro h
    obtain ⟨u, hu⟩ := Option.isSome_iff_exists.mp h
    unfold sendToDiscord buildSendUrl
    rw [hu]
    simp only [makeRequest_httpError st stx body Method.POST hst,
      convertError_httpErrorMessage]
  · intro h
    obtain ⟨u, hu⟩ := Option.isSome_iff_exists.mp h
    unfold editDiscordMessage
    rw [hu]
    simp only [makeRequest_httpError st stx body Method.PATCH hst,
      convertError_httpErrorMessage]
  · intro h
    obtain ⟨u, hu⟩ := Option.isSome_iff_exists.mp h
    unfold deleteDiscordMessage
    rw [hu]
    simp only [makeRequest_httpError st stx body Method.DELETE hst,
      convertError_httpErrorMessage]

/-- C2 (amended): a network-level `fetch` exception and a JSON decode failure
on a success-status response are caught, classified by `convertError` and
returned as error values (an `unknown_error` whenever the thrown message does
not both begin with `\x7b` and parse as JSON — in particular always for the
decode failure); but a malformed webhook URL throws in `new URL` outside the
`try`, so that exception propagates (see the counterexample). -/
theorem claim_C2 (wu mid : String) (pl plE : List (String × PayloadValue)) (w : Bool)
    (tid : Option String) (msg : String) (st : Nat) (stx body : String)
    (hsend : (parseURL wu).isSome = true)
    (hedit : (parseURL (wu ++ "/messages/" ++ mid)).isSome = true) :
    (sendToDiscord wu pl w tid (.networkFailure (.error msg))
        = .ok { result := none, error := some (convertError (.error msg)) })
    ∧ (editDiscordMessage wu mid plE (.networkFailure (.error msg))
        = .ok { result := none, error := some (convertError (.error msg)) })
    ∧ (deleteDiscordMessage wu mid (.networkFailure (.error msg))
        = .ok (some (convertError (.error msg))))
    ∧ (startsWithLBrace msg = false → convertError (.error msg) = .unknown_error msg)
    ∧ (jsonParse msg = none → convertError (.error msg) = .unknown_error msg)
    ∧ (200 ≤ st → st ≤ 299 → jsonParse body = none →
        sendToDiscord wu pl w tid (.response st stx body)
          = .ok { result := none, error := some (.unknown_error jsonDecodeErrorMessage) })
    ∧ (200 ≤ st → st ≤ 299 → jsonParse body = none →
        editDiscordMessage wu mid plE (.response st stx body)
          = .ok { result := none, error := some (.unknown_error jsonDecodeErrorMessage) }) := by
  obtain ⟨u, hu⟩ := Option.isSome_iff_exists.mp hsend
  obtain ⟨u2, hu2⟩ := Option.isSome_iff_exists.mp hedit
  have hconvDecode : convertError (.error jsonDecodeErrorMessage)
      = .unknown_error jsonDecodeErrorMessage := by decide
  refine ⟨?_, ?_, ?_, ?_, ?_, ?_, ?_⟩
  · unfold sendToDiscord buildSendUrl
    rw [hu]
    rfl
  · unfold editDiscordMessage
    rw [hu2]
    rfl
  · unfold deleteDiscordMessage
    rw [hu2]
    rfl
  · intro hs
    rw [convertError_error_def, if_neg (by simp [hs])]
  · intro hp
    rw [convertError_error_def]
    by_cases hs : startsWithLBrace msg = true
    · rw [if_pos hs, hp]
    · rw [if_neg (by simp_all)]
  · intro h2 h3 hp
    unfold sendToDiscord buildSendUrl
    rw [hu]
    unfold makeRequest
    simp only [if_pos (And.intro h2 h3), hp]
    simp [hconvDecode]
  · intro h2 h3 hp
    unfold editDiscordMessage
    rw [hu2]
    unfold makeRequest
    simp only [if_pos (And.intro h2 h3), hp]
    simp [hconvDecode]

/-- C2 counterexample: with the (reachable) malformed configuration
`DISCORD_WEBHOOK_URL = "not a url"`, `new URL` throws outside the `try` of
`sendToDiscord`, so the exception propagates to the caller instead of being
returned as an `unknown_error` value — refuting "a malformed webhook URL ...
returns an unknown_error ... and never lets an exception propagate". -/
theorem claim_C2_counterexample :
    sendToDiscord "not a url" [] true none (.response 200 "OK" "ok")
      = Except.error (JSError.error invalidURLMessage) := by
  rfl

/-- C10: the classifier produces a `webhook_error` exactly when the caught
`Error` message begins with `\x7b` and parses as JSON; consequently the
non-HTTP message "\x7b\x7d" is classified as a `webhook_error` with all three
payload fields `undefined`, not as an `unknown_error`. -/
theorem claim_C10 :
    (∀ msg : String,
      (∃ st stx b, convertError (.error msg) = .webhook_error st stx b)
        ↔ (startsWithLBrace msg = true ∧ (jsonParse msg).isSome = true))
    ∧ convertError (.error "\x7b\x7d") = .webhook_error none none none
    ∧ convertError (.error "\x7b\x7d") ≠ .unknown_error "\x7b\x7d" := by
  refine ⟨?_, by decide, by decide⟩
  intro msg
  constructor
  · rintro ⟨st, stx, b, h⟩
    rw [convertError_error_def] at h
    by_cases hs : startsWithLBrace msg = true
    · rcases hp : jsonParse msg with _ | kvs
      · rw [if_pos hs, hp] at h
        exact absurd h (by simp)
      · exact ⟨hs, by simp [hp]⟩
    · rw [if_neg (by simp_all)] at h
      exact absurd h (by simp)
  · rintro ⟨hs, hp⟩
    obtain ⟨kvs, hk⟩ := Option.isSome_iff_exists.mp hp
    refine ⟨lookupField kvs "status", lookupField kvs "statusText", lookupField kvs "body", ?_⟩
    rw [convertError_error_def, if_pos hs, hk]

/-- C8: a success-status delete response is returned as a success carrying
the message identifier, for any response body whatsoever (in particular the
empty body): the `DELETE` branch of `makeRequest` returns before any body
parsing, so no parse failure can occur. -/
theorem claim_C8 (wu mid stx body : String) (st : Nat)
    (hurl : (parseURL (wu ++ "/messages/" ++ mid)).isSome = true)
    (h2 : 200 ≤ st) (h3 : st ≤ 299) :
    deleteDiscordMessage wu mid (.response st stx body) = .ok none
    ∧ discord_delete_message wu { message_id := mid } (.response st stx body)
        = .ok { text := "メッセージを削除しました\nID: " ++ mid
                isError := false
                structuredContent := some
                  { success := true, message_id := some (.str mid), channel_id := none
                    timestamp := none } } := by
  obtain ⟨u, hu⟩ := Option.isSome_iff_exists.mp hurl
  have hdel : deleteDiscordMessage wu mid (.response st stx body) = .ok none := by
    unfold deleteDiscordMessage makeRequest
    rw [hu]
    simp [if_pos (And.intro h2 h3)]
  refine ⟨hdel, ?_⟩
  unfold discord_delete_message
  rw [hdel]

theorem key_mem_condEntry (a k : String) (v : PayloadValue) (b : Bool) :
    a ∈ (condEntry b k v).map Prod.fst ↔ (b = true ∧ a = k) := by
  cases b <;> simp [condEntry]

theorem pair_mem_condEntry (a : String) (x : PayloadValue) (k : String) (v : PayloadValue)
    (b : Bool) :
    (a, x) ∈ condEntry b k v ↔ (b = true ∧ a = k ∧ x = v) := by
  cases b <;> simp [condEntry]

theorem mem_setParam_self (u : URLRec) (k v : String) :
    (k, v) ∈ (setParam u k v).query := by
  simp [setParam]

theorem mem_setParam_other (u : URLRec) (k v k2 v2 : String)
    (h : (k, v) ∈ u.query) (hk : k ≠ k2) :
    (k, v) ∈ (setParam u k2 v2).query := by
  simp only [setParam, List.mem_append, List.mem_filter]
  exact Or.inl ⟨h, by simpa using hk⟩

/-- C5: `thread_id` is never a key of the send body; the handler forwards it
unchanged as the third argument of `sendToDiscord`, and a non-empty
`thread_id` shows up as the `thread_id=...` query parameter of the transport
URL. -/
theorem claim_C5 (p : SendMessageInput) (wu t : String) (u : URLRec) :
    "thread_id" ∉ sendPayloadKeys p
    ∧ ((hasContentB p.content || hasEmbedsB p.embeds) = true →
        sendPhase1 p = .callSend (buildSendPayload p) true p.thread_id)
    ∧ (p.thread_id = some t → t ≠ "" → buildSendUrl wu true p.thread_id = some u →
        ("thread_id", t) ∈ u.query) := by
  refine ⟨?_, ?_, ?_⟩
  · simp only [sendPayloadKeys, buildSendPayload, List.map_append, List.mem_append,
      key_mem_condEntry]
    push_neg
    simp
  · intro h
    unfold sendPhase1
    rw [if_neg]
    intro hboth
    rw [hboth.1, hboth.2] at h
    simp at h
  · intro ht htne hb
    rw [ht] at hb
    unfold buildSendUrl at hb
    rcases hp : parseURL wu with _ | u0
    · rw [hp] at hb
      exact absurd hb (by simp)
    · rw [hp] at hb
      simp only [if_true, if_neg htne, Option.some.injEq] at hb
      rw [← hb]
      exact mem_setParam_self _ "thread_id" t

/-- C6: the edit payload only ever contains the whitelisted keys `content`,
`embeds` and `allowed_mentions`; no create-only key is ever forwarded (the
strict edit schema cannot even represent them). -/
theorem claim_C6 (q : EditMessageInput) :
    editPayloadKeys q ⊆ ["content", "embeds", "allowed_mentions"]
    ∧ "username" ∉ editPayloadKeys q
    ∧ "avatar_url" ∉ editPayloadKeys q
    ∧ "tts" ∉ editPayloadKeys q
    ∧ "thread_id" ∉ editPayloadKeys q
    ∧ "thread_name" ∉ editPayloadKeys q := by
  refine ⟨?_, ?_, ?_, ?_, ?_, ?_⟩
  · intro a ha
    simp only [editPayloadKeys, buildEditPayload, List.map_append, List.mem_append,
      key_mem_condEntry] at ha
    rcases ha with (⟨_, rfl⟩ | ⟨_, rfl⟩) | ⟨_, rfl⟩ <;> simp
  all_goals
    simp [editPayloadKeys, buildEditPayload, List.map_append, List.mem_append,
      key_mem_condEntry, pair_mem_condEntry]

/-- C7: a key appears in the send body exactly when its source parameter is
present and truthy; in particular the payload for `content = "hi"` alone is
the one-key record `content`. -/
theorem claim_C7 :
    (∀ p : SendMessageInput,
      ("content" ∈ sendPayloadKeys p ↔ hasContentB p.content = true)
      ∧ ("username" ∈ sendPayloadKeys p ↔ truthyOptStr p.username = true)
      ∧ ("avatar_url" ∈ sendPayloadKeys p ↔ truthyOptStr p.avatar_url = true)
      ∧ ("tts" ∈ sendPayloadKeys p ↔ p.tts = true)
      ∧ ("embeds" ∈ sendPayloadKeys p ↔ hasEmbedsB p.embeds = true)
      ∧ ("allowed_mentions" ∈ sendPayloadKeys p ↔ p.allowed_mentions.isSome = true)
      ∧ ("thread_name" ∈ sendPayloadKeys p ↔ truthyOptStr p.thread_name = true))
    ∧ buildSendPayload
        { content := some "hi", username := none, avatar_url := none, tts := false,
          embeds := none, allowed_mentions := none, thread_id := none, thread_name := none }
      = [("content", PayloadValue.str "hi")] := by
  constructor
  · intro p
    refine ⟨?_, ?_, ?_, ?_, ?_, ?_, ?_⟩ <;>
      simp [sendPayloadKeys, buildSendPayload, List.map_append, List.mem_append,
        key_mem_condEntry, pair_mem_condEntry]
  · rfl

/-- C1 (the claim's `validation_error` part is a code bug): when neither
`content` nor `embeds` is supplied, both handlers return early with an
`isError` text result and never reach `sendToDiscord` / `editDiscordMessage`
(the composed handler result does not depend on the oracle or the URL); but
the result carries no `validation_error` and no `"content/embeds"` field —
the text differs from the `formatError` rendering that the tool descriptions
document. -/
theorem claim_C1 (p : SendMessageInput) (q : EditMessageInput) (wu : String)
    (outcome : FetchResult)
    (hc : hasContentB p.content = false) (he : hasEmbedsB p.embeds = false)
    (hc2 : hasContentB q.content = false) (he2 : hasEmbedsB q.embeds = false) :
    sendPhase1 p = .respond missingContentResult
    ∧ discord_send_message wu p outcome = .ok missingContentResult
    ∧ editPhase1 q = .respond missingContentResult
    ∧ discord_edit_message wu q outcome = .ok missingContentResult
    ∧ missingContentResult.isError = true
    ∧ missingContentResult.structuredContent = none
    ∧ missingContentResult.text
        ≠ "エラー: " ++ formatError (.validation_error "content/embeds"
            "content、embeds のうち最低1つを指定してください") := by
  have hs : sendPhase1 p = .respond missingContentResult := by
    unfold sendPhase1
    rw [if_pos ⟨hc, he⟩]
  have hq : editPhase1 q = .respond missingContentResult := by
    unfold editPhase1
    rw [if_pos ⟨hc2, he2⟩]
  refine ⟨hs, ?_, hq, ?_, rfl, rfl, by decide⟩
  · unfold discord_send_message
    rw [hs]
  · unfold discord_edit_message
    rw [hq]

/-- C9: the send handler always calls `sendToDiscord` with `wait = true`
(visible both in the call and as the `wait=true` query parameter), and on a
success response the returned `structuredContent` carries exactly the `id`,
`channel_id` and `timestamp` echoed by the endpoint. -/
theorem claim_C9 (p : SendMessageInput) (wu : String) (st : Nat) (stx i c txt ts : String)
    (hin : (hasContentB p.content || hasEmbedsB p.embeds) = true)
    (hurl : (parseURL wu).isSome = true) (h2 : 200 ≤ st) (h3 : st ≤ 299) :
    sendPhase1 p = .callSend (buildSendPayload p) true p.thread_id
    ∧ (∃ bu, buildSendUrl wu true p.thread_id = some bu ∧ ("wait", "true") ∈ bu.query)
    ∧ discord_send_message wu p
        (.response st stx (stringifyFlat [("id", .str i), ("channel_id", .str c),
          ("content", .str txt), ("timestamp", .str ts)]))
      = .ok { text := "メッセージを送信しました\nID: " ++ i ++ "\nチャンネル: " ++ c
              isError := false
              structuredContent := some
                { success := true, message_id := some (.str i),
                  channel_id := some (.str c), timestamp := some (.str ts) } } := by
  obtain ⟨u, hu⟩ := Option.isSome_iff_exists.mp hurl
  have hs : sendPhase1 p = .callSend (buildSendPayload p) true p.thread_id := by
    unfold sendPhase1
    rw [if_neg]
    intro hboth
    rw [hboth.1, hboth.2] at hin
    simp at hin
  refine ⟨hs, ?_, ?_⟩
  · unfold buildSendUrl
    rw [hu]
    refine ⟨_, rfl, ?_⟩
    have hw : ("wait", "true") ∈ (setParam u "wait" "true").query :=
      mem_setParam_self u "wait" "true"
    rcases p.thread_id with _ | t
    · simpa using hw
    · simp only []
      by_cases ht : t = ""
      · rw [if_pos ht]
        simpa using hw
      · rw [if_neg ht]
        exact mem_setParam_other _ "wait" "true" "thread_id" t (by simpa using hw)
          (by decide)
  · unfold discord_send_message
    have hsend : sendToDiscord wu (buildSendPayload p) true p.thread_id
        (.response st stx (stringifyFlat [("id", .str i), ("channel_id", .str c),
          ("content", .str txt), ("timestamp", .str ts)]))
        = .ok { result := some [("id", .str i), ("channel_id", .str c),
                  ("content", .str txt), ("timestamp", .str ts)], error := none } := by
      unfold sendToDiscord buildSendUrl makeRequest
      rw [hu]
      simp only [if_pos (And.intro h2 h3), jsonParse_stringifyFlat]
      rfl
    simp only [hs]
    simp only [hsend]
    rfl

theorem validEmbed_bounds (e : Embed) (h : validEmbed e = true) : embedWithinBounds e := by
  unfold validEmbed at h
  simp only [Bool.and_eq_true] at h
  obtain ⟨⟨⟨⟨⟨⟨⟨⟨h1, h2⟩, h3⟩, h4⟩, h5⟩, h6⟩, h7⟩, h8⟩, h9⟩ := h
  refine ⟨?_, ?_, ?_, ?_, ?_, ?_⟩
  · intro t ht
    rw [ht] at h1
    simpa using h1
  · intro d hd
    rw [hd] at h3
    simpa using h3
  · intro f hf
    rw [hf] at h5
    unfold validEmbedFooter at h5
    simp only [Bool.and_eq_true, decide_eq_true_eq] at h5
    exact h5.1.2
  · intro a ha
    rw [ha] at h8
    unfold validEmbedAuthor at h8
    simp only [Bool.and_eq_true, decide_eq_true_eq] at h8
    exact h8.1.1.2
  · intro fs hfs
    rw [hfs] at h9
    simp only [Bool.and_eq_true, decide_eq_true_eq] at h9
    exact h9.1
  · intro col hcol
    rw [hcol] at h4
    simp only [Bool.and_eq_true, decide_eq_true_eq] at h4
    exact h4

/-- C4: the zod schemas accept an input only when every documented bound
holds — message content ≤ 2000, embed title ≤ 256, description ≤ 4096,
footer text ≤ 2048, author name ≤ 256, username ≤ 80, thread name ≤ 100,
at most 10 embeds, at most 25 fields per embed, and any color an integer in
[0, 16777215]; an input violating a bound is rejected by the schema gate and
the handler (hence any network call) is never reached. -/
theorem claim_C4 (p : SendMessageInput) (q : EditMessageInput) :
    (validSendMessageInput p = true →
      (∀ s, p.content = some s → s.length ≤ 2000)
      ∧ (∀ un, p.username = some un → un.length ≤ 80)
      ∧ (∀ tn, p.thread_name = some tn → tn.length ≤ 100)
      ∧ (∀ es, p.embeds = some es → es.length ≤ 10 ∧ ∀ e ∈ es, embedWithinBounds e))
    ∧ (validEditMessageInput q = true →
      (∀ s, q.content = some s → s.length ≤ 2000)
      ∧ (∀ es, q.embeds = some es → es.length ≤ 10 ∧ ∀ e ∈ es, embedWithinBounds e))
    ∧ (validSendMessageInput p = false → sendToolPipeline p = none)
    ∧ (validEditMessageInput q = false → editToolPipeline q = none) := by
  refine ⟨?_, ?_, ?_, ?_⟩
  · intro h
    unfold validSendMessageInput at h
    simp only [Bool.and_eq_true] at h
    obtain ⟨⟨⟨⟨h1, h2⟩, h3⟩, h4⟩, h5⟩ := h
    refine ⟨?_, ?_, ?_, ?_⟩
    · intro sc hsc
      rw [hsc] at h1
      simp only [Bool.and_eq_true, decide_eq_true_eq] at h1
      exact h1.2
    · intro un hun
      rw [hun] at h2
      simpa using h2
    · intro tn htn
      rw [htn] at h5
      simpa using h5
    · intro es hes
      rw [hes] at h4
      simp only [Bool.and_eq_true, decide_eq_true_eq, List.all_eq_true] at h4
      exact ⟨h4.1, fun e he => validEmbed_bounds e (h4.2 e he)⟩
  · intro h
    unfold validEditMessageInput at h
    simp only [Bool.and_eq_true] at h
    obtain ⟨⟨h1, h2⟩, h3⟩ := h
    refine ⟨?_, ?_⟩
    · intro sc hsc
      rw [hsc] at h2
      simp only [Bool.and_eq_true, decide_eq_true_eq] at h2
      exact h2.2
    · intro es hes
      rw [hes] at h3
      simp only [Bool.and_eq_true, decide_eq_true_eq, List.all_eq_true] at h3
      exact ⟨h3.1, fun e he => validEmbed_bounds e (h3.2 e he)⟩
  · intro h
    unfold sendToolPipeline
    rw [if_neg (by simp [h])]
  · intro h
    unfold editToolPipeline
    rw [if_neg (by simp [h])]

/-! Witnesses: each theorem with hypotheses applied at a concrete input. -/

theorem claim_C1_witness :
    discord_send_message testWebhookUrl emptySendInput (.response 200 "OK" "ok")
      = .ok missingContentResult :=
  (claim_C1 emptySendInput emptyEditInput testWebhookUrl (.response 200 "OK" "ok")
    (by decide) (by decide) (by decide) (by decide)).2.1

theorem claim_C2_witness :
    convertError (.error "fetch failed") = .unknown_error "fetch failed" :=
  ((claim_C2 testWebhookUrl "42" [] [] true none "fetch failed" 200 "OK" "ok"
    (by decide) (by decide)).2.2.2.1) (by decide)

theorem claim_C3_witness :
    sendToDiscord testWebhookUrl [] true none (.response 404 "Not Found" "Unknown Message")
      = .ok { result := none,
              error := some (.webhook_error (some (.num 404)) (some (.str "Not Found"))
                (some (.str "Unknown Message"))) } :=
  (claim_C3 testWebhookUrl "42" [] [] true none 404 "Not Found" "Unknown Message"
    (by decide)).1 (by decide)

theorem claim_C4_witness :
    validSendMessageInput invalidSendInput = false
      ∧ sendToolPipeline invalidSendInput = none :=
  ⟨by decide, (claim_C4 invalidSendInput emptyEditInput).2.2.1 (by decide)⟩

theorem claim_C5_witness :
    ("thread_id", "777")
      ∈ (URLRec.mk "https://discord.com/api/webhooks/1/t"
          [("wait", "true"), ("thread_id", "777")]).query :=
  (claim_C5 testSendInput testWebhookUrl "777"
      ⟨"https://discord.com/api/webhooks/1/t", [("wait", "true"), ("thread_id", "777")]⟩).2.2
    rfl (by decide) (by decide)

theorem claim_C6_witness :
    "username" ∉ editPayloadKeys testEditInput :=
  (claim_C6 testEditInput).2.1

theorem claim_C7_witness :
    buildSendPayload
        { content := some "hi", username := none, avatar_url := none, tts := false,
          embeds := none, allowed_mentions := none, thread_id := none, thread_name := none }
      = [("content", PayloadValue.str "hi")] :=
  claim_C7.2

theorem claim_C8_witness :
    discord_delete_message testWebhookUrl { message_id := "42" }
        (.response 204 "No Content" "")
      = .ok { text := "メッセージを削除しました\nID: " ++ "42"
              isError := false
              structuredContent := some
                { success := true, message_id := some (.str "42"), channel_id := none
                  timestamp := none } } :=
  (claim_C8 testWebhookUrl "42" "No Content" "" 204 (by decide) (by decide) (by decide)).2

theorem claim_C9_witness :
    discord_send_message testWebhookUrl testSendInput
        (.response 200 "OK" (stringifyFlat [("id", .str "m1"), ("channel_id", .str "ch1"),
          ("content", .str "hi"), ("timestamp", .str "t0")]))
      = .ok { text := "メッセージを送信しました\nID: " ++ "m1" ++ "\nチャンネル: " ++ "ch1"
              isError := false
              structuredContent := some
                { success := true, message_id := some (.str "m1"),
                  channel_id := some (.str "ch1"), timestamp := some (.str "t0") } } :=
  (claim_C9 testSendInput testWebhookUrl 200 "OK" "m1" "ch1" "hi" "t0" (by decide)
    (by decide) (by decide) (by decide)).2.2

theorem claim_C10_witness :
    convertError (.error "\x7b\x7d") = .webhook_error none none none :=
  claim_C10.2.1

end DiscordMCP
